import Mathlib

/-!
Shallow embedding of the alternative-sourcing and scoring pipeline of the
Vinegar browser extension (background service worker, `part_002`).

JavaScript strings are modelled as Lean `String` (all data of interest is
ASCII, where `String.toLower` agrees with `String.prototype.toLowerCase`),
JS numbers as `ℚ` (every number the pipeline manipulates is a decimal that
doubles represent exactly, and `NaN` is modelled by `Option`), and fields
that the JS reads through `?.` / `|| ''` / `|| []` defaulting are modelled
as total fields whose "absent" value is `""` / `[]`.
-/

namespace Vinegar

/-- JS `hay.includes(needle)` : substring test. -/
def jsIncludes (hay needle : String) : Bool :=
  decide (needle.toList <:+: hay.toList)

/-- JS `s.toLowerCase()` (ASCII; agrees with JS on the data in play). -/
def jsToLower (s : String) : String :=
  ⟨s.toList.map Char.toLower⟩

/-- JS `s.split(' ')[0]` : first space-separated token (`""` stays `""`). -/
def firstWord (s : String) : String :=
  ⟨s.toList.takeWhile (fun c => c ≠ ' ')⟩

/-- One entry of the score breakdown: `{ reason, change }`. -/
structure BreakdownEntry where
  reason : String
  change : Int
deriving Repr, DecidableEq

/-- Sum of the signed `change` deltas of a breakdown. -/
def sumChanges (l : List BreakdownEntry) : Int :=
  (l.map (fun e => e.change)).sum

/-- The fields of the parsed company analysis that the scorer and the
avoid-list detector read.  A field the JS would find `undefined` is the
empty string / empty list (the code reads every one of them through
`?.toLowerCase() || ''`, `|| []` or `?.some`). -/
structure CompanyAnalysis where
  parentCompany : String
  companySize : String
  ownershipType : String
  factualConcerns : List String
  certifications : List String
  subsidiaries : List String
deriving Repr

/-- The user-preferences fields the scorer reads.
`sustainableProducts = none` models the JS field being `undefined`
(the code applies `!== false`, so `undefined` means enabled). -/
structure UserPreferences where
  avoidedBrands : List String
  sustainableProducts : Option Bool
deriving Repr

/-- Company-size penalty block of `calculateAlignmentScore`. -/
def sizeStage (companySize : String) (acc : Int × List BreakdownEntry) :
    Int × List BreakdownEntry :=
  if jsIncludes companySize "mega" || jsIncludes companySize ">100b" then
    (acc.1 - 15, acc.2 ++ [⟨"Mega-corporation (>$100B revenue)", -15⟩])
  else if jsIncludes companySize "large" || jsIncludes companySize "10b-100b" then
    (acc.1 - 10, acc.2 ++ [⟨"Large corporation ($10B-$100B)", -10⟩])
  else if jsIncludes companySize "medium" || jsIncludes companySize "1b-10b" then
    (acc.1 - 5, acc.2 ++ [⟨"Medium corporation ($1B-$10B)", -5⟩])
  else if jsIncludes companySize "small" || jsIncludes companySize "<1b" then
    (acc.1 + 10, acc.2 ++ [⟨"Small business (<$1B)", 10⟩])
  else acc

/-- Ownership-structure block of `calculateAlignmentScore`.
Note the source tests `ownership.includes('private equity')` — with a
space, not the hyphenated enum value. -/
def ownershipStage (ownership companySize : String)
    (acc : Int × List BreakdownEntry) : Int × List BreakdownEntry :=
  if jsIncludes ownership "publicly-traded" && jsIncludes companySize "mega" then
    (acc.1 - 10, acc.2 ++ [⟨"Publicly traded mega-corp", -10⟩])
  else if jsIncludes ownership "private equity" then
    (acc.1 - 5, acc.2 ++ [⟨"Private equity owned", -5⟩])
  else if jsIncludes ownership "family" then
    (acc.1 + 10, acc.2 ++ [⟨"Family-owned business", 10⟩])
  else if jsIncludes ownership "co-op" || jsIncludes ownership "b-corp" then
    (acc.1 + 15, acc.2 ++ [⟨"Co-op or B-Corp structure", 15⟩])
  else acc

/-- Avoided-brands loop of `calculateAlignmentScore`: per brand, parent
match −30 and `break`, else subsidiary match −25 and `break`. -/
def avoidLoop (companyName : String) (subsidiaries : List String)
    (brands : List String) (acc : Int × List BreakdownEntry) :
    Int × List BreakdownEntry :=
  match brands with
  | [] => acc
  | b :: rest =>
    let brandLower := jsToLower b
    if jsIncludes companyName brandLower then
      (acc.1 - 30, acc.2 ++ [⟨"On your avoid list: " ++ b, -30⟩])
    else if subsidiaries.any (fun sub => jsIncludes (jsToLower sub) brandLower) then
      (acc.1 - 25, acc.2 ++ [⟨"Parent company on avoid list: " ++ b, -25⟩])
    else
      avoidLoop companyName subsidiaries rest acc

/-- The four once-only flags of the documented-issues loop
(JS locals `laborIssues`, `envIssues`, `antiCompetitive`, `political`). -/
structure ConcernFlags where
  labor : Nat
  env : Nat
  anti : Nat
  political : Nat
deriving Repr

/-- State threaded through the documented-issues loop. -/
abbrev ConcernState := (Int × List BreakdownEntry) × ConcernFlags

/-- First `if` of the documented-issues loop body (labor). -/
def concernStepLabor (cl : String) (st : ConcernState) : ConcernState :=
  if (jsIncludes cl "labor" || jsIncludes cl "worker" || jsIncludes cl "wage")
      && st.2.labor == 0 then
    ((st.1.1 - 10, st.1.2 ++ [⟨"Documented labor concerns", -10⟩]),
     { st.2 with labor := 1 })
  else st

/-- Second `if` of the documented-issues loop body (environment). -/
def concernStepEnv (cl : String) (st : ConcernState) : ConcernState :=
  if (jsIncludes cl "environment" || jsIncludes cl "pollution" || jsIncludes cl "climate")
      && st.2.env == 0 then
    ((st.1.1 - 10, st.1.2 ++ [⟨"Environmental violations", -10⟩]),
     { st.2 with env := 1 })
  else st

/-- Third `if` of the documented-issues loop body (anti-competitive). -/
def concernStepAnti (cl : String) (st : ConcernState) : ConcernState :=
  if (jsIncludes cl "monopoly" || jsIncludes cl "anti-competitive" || jsIncludes cl "antitrust")
      && st.2.anti == 0 then
    ((st.1.1 - 5, st.1.2 ++ [⟨"Anti-competitive practices", -5⟩]),
     { st.2 with anti := 1 })
  else st

/-- Fourth `if` of the documented-issues loop body (political). -/
def concernStepPolitical (cl : String) (st : ConcernState) : ConcernState :=
  if (jsIncludes cl "political" || jsIncludes cl "lobbying" || jsIncludes cl "controversy")
      && st.2.political == 0 then
    ((st.1.1 - 5, st.1.2 ++ [⟨"Political controversies", -5⟩]),
     { st.2 with political := 1 })
  else st

/-- Documented-issues loop of `calculateAlignmentScore`. -/
def concernsLoop (concerns : List String)
    (acc : Int × List BreakdownEntry) (flags : ConcernFlags) :
    Int × List BreakdownEntry :=
  match concerns with
  | [] => acc
  | c :: rest =>
    let cl := jsToLower c
    let s4 := concernStepPolitical cl (concernStepAnti cl
      (concernStepEnv cl (concernStepLabor cl (acc, flags))))
    concernsLoop rest s4.1 s4.2

/-- Certifications loop of `calculateAlignmentScore` (bonuses stack). -/
def certLoop (certs : List String) (acc : Int × List BreakdownEntry) :
    Int × List BreakdownEntry :=
  match certs with
  | [] => acc
  | c :: rest =>
    let cl := jsToLower c
    let acc1 :=
      if jsIncludes cl "b-corp" || jsIncludes cl "b corp" then
        (acc.1 + 15, acc.2 ++ [⟨"B-Corp certified", 15⟩])
      else if jsIncludes cl "fair trade" then
        (acc.1 + 10, acc.2 ++ [⟨"Fair Trade certified", 10⟩])
      else if jsIncludes cl "carbon neutral" || jsIncludes cl "carbon-neutral" then
        (acc.1 + 5, acc.2 ++ [⟨"Carbon neutral commitment", 5⟩])
      else if jsIncludes cl "living wage" then
        (acc.1 + 10, acc.2 ++ [⟨"Living wage employer", 10⟩])
      else acc
    certLoop rest acc1

/-- Result of `calculateAlignmentScore`: `{ score, breakdown }`. -/
structure ScoreResult where
  score : Int
  breakdown : List BreakdownEntry
deriving Repr

/-- The running `(score, breakdown)` pair of `calculateAlignmentScore`
right before the final clamp: starts at `(100, [])` and applies the five
blocks of the source in order. -/
def scoreAcc (companyData : CompanyAnalysis)
    (userPreferences : UserPreferences) : Int × List BreakdownEntry :=
  let companySize := jsToLower companyData.companySize
  let acc1 := sizeStage companySize (100, [])
  let ownership := jsToLower companyData.ownershipType
  let acc2 := ownershipStage ownership companySize acc1
  let companyName := jsToLower companyData.parentCompany
  let acc3 := avoidLoop companyName companyData.subsidiaries
    userPreferences.avoidedBrands acc2
  let acc4 := concernsLoop companyData.factualConcerns acc3 ⟨0, 0, 0, 0⟩
  -- JS: `userPreferences.sustainableProducts !== false` (default true)
  if userPreferences.sustainableProducts = some false then acc4
  else certLoop companyData.certifications acc4

/-- Source `calculateAlignmentScore(companyData, userPreferences)` from the source:
starts at 100, applies the five blocks in order, clamps to [0, 100]. -/
def calculateAlignmentScore (companyData : CompanyAnalysis)
    (userPreferences : UserPreferences) : ScoreResult :=
  let acc5 := scoreAcc companyData userPreferences
  { score := max 0 (min 100 acc5.1), breakdown := acc5.2 }

/-- Result of `checkAvoidedBrands`. -/
structure AvoidCheck where
  isOnAvoidList : Bool
  reason : String
deriving Repr, DecidableEq

/-- Inner loop of `checkAvoidedBrands` over (pre-lowercased) subsidiaries. -/
def avoidSubMatch (subsidiaries : List String) (brandLower : String) : Bool :=
  subsidiaries.any (fun sub =>
    jsIncludes sub brandLower || jsIncludes brandLower (firstWord sub))

/-- Loop of `checkAvoidedBrands` over the avoided brands. -/
def checkAvoidedLoop (companyName : String) (subsidiaries : List String)
    (brands : List String) : AvoidCheck :=
  match brands with
  | [] => ⟨false, ""⟩
  | b :: rest =>
    let brandLower := jsToLower b
    if jsIncludes companyName brandLower
        || jsIncludes brandLower (firstWord companyName) then
      ⟨true, "You\x27ve chosen to avoid " ++ b⟩
    else if avoidSubMatch subsidiaries brandLower then
      ⟨true, "Parent company of " ++ b ++ " (which you\x27ve chosen to avoid)"⟩
    else
      checkAvoidedLoop companyName subsidiaries rest

/-- Source `checkAvoidedBrands(companyData, avoidedBrands)` from the source. -/
def checkAvoidedBrands (companyData : CompanyAnalysis)
    (avoidedBrands : List String) : AvoidCheck :=
  if avoidedBrands = [] then ⟨false, ""⟩
  else
    checkAvoidedLoop (jsToLower companyData.parentCompany)
      (companyData.subsidiaries.map (fun s => jsToLower s)) avoidedBrands

/-- The per-brand avoid condition the scorer's loop tests. -/
def scorerAvoidHit (companyName : String) (subsidiaries : List String)
    (b : String) : Bool :=
  jsIncludes companyName (jsToLower b)
    || subsidiaries.any (fun sub => jsIncludes (jsToLower sub) (jsToLower b))

/-! ### Places aggregation (`addUniquePlaces`, `findLocalAlternatives`) -/

/-- A provider place record, with the fields the aggregation and ranking
code reads.  `displayName` models `place.displayName?.text` (the provider
wraps the name in `{ text }`); `none` models an absent field. -/
structure Place where
  id : String
  displayName : Option String
  formattedAddress : Option String
  rating : Option ℚ
  types : List String
  businessStatus : String
deriving Repr, DecidableEq

/-- Source `addUniquePlaces(allPlaces, newPlaces, seenPlaceIds)` from the source:
append each new place whose id is not in the seen-set, recording the id.
The JS mutates `allPlaces` and the `Set`; here both are returned. -/
def addUniquePlaces (allPlaces : List Place) (newPlaces : List Place)
    (seenPlaceIds : List String) : List Place × List String :=
  match newPlaces with
  | [] => (allPlaces, seenPlaceIds)
  | p :: rest =>
    if p.id ∈ seenPlaceIds then
      addUniquePlaces allPlaces rest seenPlaceIds
    else
      addUniquePlaces (allPlaces ++ [p]) rest (seenPlaceIds ++ [p.id])

/-- The pure merging skeleton of `findLocalAlternatives`: the result
batches of the strategy queries, in execution order, merged through
`addUniquePlaces` starting from an empty list and an empty seen-set. -/
def mergeStrategyBatches (batches : List (List Place)) : List Place :=
  (batches.foldl (fun st places => addUniquePlaces st.1 places st.2)
    ([], [])).1

/-- One step of first-occurrence deduplication by provider id, following
the spec text for the aggregator invariant ("each new ID recorded in a
seen-set before appending", discovery order preserved). -/
def specStep (acc : List Place) (p : Place) : List Place :=
  if p.id ∈ acc.map Place.id then acc else acc ++ [p]

/-- First-occurrence deduplication by provider id (the specification to
compare `mergeStrategyBatches` against). -/
def specDedupById (places : List Place) : List Place :=
  places.foldl specStep []

/-! ### Relevance ranking (`filterAndScorePlaces`) -/

/-- Fixed big-box denylist of `filterAndScorePlaces` (matched by
lowercased-name substring). -/
def bigBoxRetailers : List String :=
  ["walmart", "target", "best buy", "bestbuy", "amazon",
   "home depot", "homedepot", "lowe\x27s", "lowes", "costco",
   "sam\x27s club", "sams club", "bj\x27s", "bjs wholesale",
   "kohls", "kohl\x27s", "jcpenney", "jc penney", "sears",
   "macy\x27s", "macys", "dick\x27s sporting goods", "dicks sporting goods",
   "staples", "office depot", "petsmart", "petco", "cvs", "walgreens"]

/-- Fixed denylist of irrelevant place types. -/
def irrelevantTypes : List String :=
  ["library", "school", "university", "hospital", "church", "mosque",
   "synagogue", "cemetery", "park", "stadium", "museum", "art_gallery",
   "movie_theater", "bowling_alley", "casino", "night_club", "bar",
   "furniture_store", "car_dealer", "car_repair", "gas_station",
   "atm", "bank", "insurance_agency", "real_estate_agency"]

/-- The `categorySpecificFilters` record built from the lowercased
product category (both `if`s assign both keys, the later overwrites). -/
structure CategoryFilters where
  exclude : Option (List String)
  excludeNames : Option (List String)
deriving Repr

/-- Category-specific exclusions of `filterAndScorePlaces`. -/
def categorySpecificFilters (categoryLower : String) : CategoryFilters :=
  let f : CategoryFilters := ⟨none, none⟩
  let f :=
    if jsIncludes categoryLower "luggage" || jsIncludes categoryLower "bag"
        || jsIncludes categoryLower "travel" then
      ⟨some ["furniture_store"], some ["furniture", "sofa", "couch"]⟩
    else f
  let f :=
    if jsIncludes categoryLower "bottle" || jsIncludes categoryLower "drinkware" then
      ⟨some ["plumber", "hardware_store"], some ["plumbing", "supply"]⟩
    else f
  f

/-- Does the lowercased place name contain a big-box denylist entry? -/
def bigBoxMatch (name : String) : Bool :=
  bigBoxRetailers.any (fun retailer => jsIncludes (jsToLower name) retailer)

/-- The filter predicate of `filterAndScorePlaces` (the early-`return
false` chain written as one conjunction; `placeName` is
`place.displayName?.text || ''` lowercased). -/
def placeKeep (currentSiteLower : String) (filters : CategoryFilters)
    (place : Place) : Bool :=
  let placeName := jsToLower (place.displayName.getD "")
  !(place.businessStatus == "CLOSED_PERMANENTLY"
      || place.businessStatus == "CLOSED_TEMPORARILY") &&
  !(currentSiteLower != "" &&
      (jsIncludes placeName currentSiteLower
        || jsIncludes currentSiteLower (firstWord placeName))) &&
  !(bigBoxRetailers.any (fun retailer => jsIncludes placeName retailer)) &&
  !(place.types.any (fun t => irrelevantTypes.contains t)) &&
  !(match filters.exclude with
    | some ex => place.types.any (fun t => ex.contains t)
    | none => false) &&
  !(match filters.excludeNames with
    | some ns => ns.any (fun kw => jsIncludes placeName kw)
    | none => false)

/-- The fixed `relevantTypes` table (place type → category keywords). -/
def relevantTypes : List (String × List String) :=
  [("sporting_goods_store", ["water bottle", "fitness", "outdoor", "camping", "sports"]),
   ("clothing_store", ["clothing", "apparel", "shirt", "pants", "dress", "fashion"]),
   ("grocery_store", ["food", "grocery", "snack", "beverage", "coffee", "tea"]),
   ("supermarket", ["food", "grocery", "snack", "beverage"]),
   ("convenience_store", ["snack", "beverage", "coffee"]),
   ("home_goods_store", ["home", "kitchen", "furniture", "decor"]),
   ("electronics_store", ["electronics", "phone", "computer", "tech"]),
   ("book_store", ["book", "reading", "magazine"])]

/-- Relevance score of a place: +10 per matching type whose keywords hit
the category, +2 per matching type otherwise, +1 for a generic store. -/
def scorePlace (categoryLower : String) (place : Place) : Int :=
  let base := relevantTypes.foldl
    (fun sc entry =>
      if place.types.contains entry.1 then
        if entry.2.any (fun kw => jsIncludes categoryLower kw) then sc + 10
        else sc + 2
      else sc) 0
  if place.types.contains "store" then base + 1 else base

/-- The mapped candidate produced by `filterAndScorePlaces` (the fields
with algorithmic content; `...place` is kept as the `place` field).
JS computes `name: place.displayName?.text || place.displayName ||
'Local Store'`; when the wrapped text is present and non-empty it is
used, otherwise the fallback (the degenerate `{text: ''}` object case
is collapsed to the fallback here). -/
structure ScoredPlace where
  place : Place
  relevanceScore : Int
  name : String
  address : Option String
  rating : ℚ
deriving Repr, DecidableEq

/-- The `.map` body of `filterAndScorePlaces`. -/
def toScoredPlace (categoryLower : String) (place : Place) : ScoredPlace :=
  { place := place
    relevanceScore := scorePlace categoryLower place
    name :=
      match place.displayName with
      | some t => if t = "" then "Local Store" else t
      | none => "Local Store"
    address :=
      -- JS: `(place.formattedAddress && place.formattedAddress !== 'undefined') ? ... : null`
      match place.formattedAddress with
      | some a => if a = "" || a = "undefined" then none else some a
      | none => none
    rating :=
      -- JS: `place.rating || 4.0`
      match place.rating with
      | some r => if r = 0 then 4 else r
      | none => 4 }

/-- Source `filterAndScorePlaces(places, productCategory, analysis, currentSite)`
from the source: filter, score, stable-sort descending by relevance
(`analysis` is accepted but unused, as in the source). -/
def filterAndScorePlaces (places : List Place) (productCategory : String)
    (analysis : CompanyAnalysis) (currentSite : Option String) :
    List ScoredPlace :=
  let categoryLower := jsToLower productCategory
  let currentSiteLower :=
    match currentSite with
    | some s => jsToLower s
    | none => ""
  let filters := categorySpecificFilters categoryLower
  List.insertionSort (fun a b => b.relevanceScore ≤ a.relevanceScore)
    ((places.filter (placeKeep currentSiteLower filters)).map
      (toScoredPlace categoryLower))

/-! ### JSON values and `JSON.parse` -/

/-- JSON values (JS numbers as exact decimals in `ℚ`). -/
inductive Json where
  | null
  | bool (b : Bool)
  | num (q : ℚ)
  | str (s : String)
  | arr (elems : List Json)
  | obj (fields : List (String × Json))
deriving Repr

/-- Whitespace accepted by `JSON.parse` between tokens. -/
def jsonWs (c : Char) : Bool :=
  c = ' ' || c = '\t' || c = '\n' || c = '\r'

/-- Drop JSON token whitespace. -/
def skipWs (l : List Char) : List Char :=
  l.dropWhile jsonWs

/-- Hex digit value (by code point: `0`–`9`, `a`–`f`, `A`–`F`). -/
def hexVal (c : Char) : Option Nat :=
  let n := c.toNat
  if 48 ≤ n && n ≤ 57 then some (n - 48)
  else if 97 ≤ n && n ≤ 102 then some (n - 87)
  else if 65 ≤ n && n ≤ 70 then some (n - 55)
  else none

/-- Single-character JSON escapes (`"`/`\`/`/` map to themselves). -/
def escChar (c : Char) : Option Char :=
  if c = 'n' then some '\n'
  else if c = 't' then some '\t'
  else if c = 'r' then some '\r'
  else if c = '"' || c = '\\' || c = '/' then some c
  else if c = 'b' then some (Char.ofNat 8)
  else if c = 'f' then some (Char.ofNat 12)
  else none

/-- Body of a JSON string literal after the opening quote: returns the
decoded characters and the input after the closing quote.  (Surrogate
pairing of `\u` escapes is not modelled.) -/
def parseStringBody : List Char → Option (List Char × List Char)
  | [] => none
  | '\\' :: rest =>
    match rest with
    | 'u' :: h1 :: h2 :: h3 :: h4 :: rest2 => do
      let n1 ← hexVal h1
      let n2 ← hexVal h2
      let n3 ← hexVal h3
      let n4 ← hexVal h4
      let (s, r) ← parseStringBody rest2
      pure (Char.ofNat (((n1 * 16 + n2) * 16 + n3) * 16 + n4) :: s, r)
    | e :: rest2 => do
      let c ← escChar e
      let (s, r) ← parseStringBody rest2
      pure (c :: s, r)
    | [] => none
  | '"' :: rest => some ([], rest)
  | c :: rest =>
    if c.toNat < 32 then none
    else do
      let (s, r) ← parseStringBody rest
      pure (c :: s, r)

/-- Numeric value of a digit run. -/
def digitsToNat (ds : List Char) : Nat :=
  ds.foldl (fun n c => n * 10 + (c.toNat - '0'.toNat)) 0

/-- A JSON number from the head of the input (sign, integer part,
optional fraction, optional exponent), as an exact rational.
(The no-leading-zero restriction of strict JSON is not enforced.) -/
def parseNumber (l : List Char) : Option (ℚ × List Char) :=
  let (sign, l1) : Int × List Char :=
    match l with
    | '-' :: r => (-1, r)
    | _ => (1, l)
  let ds := l1.takeWhile Char.isDigit
  let l2 := l1.dropWhile Char.isDigit
  if ds.isEmpty then none
  else
    let step2 : Option (List Char × List Char) :=
      match l2 with
      | '.' :: r =>
        let fs := r.takeWhile Char.isDigit
        if fs.isEmpty then none else some (fs, r.dropWhile Char.isDigit)
      | _ => some ([], l2)
    match step2 with
    | none => none
    | some (fs, l3) =>
      let step3 : Option (Int × List Char) :=
        match l3 with
        | 'e' :: r | 'E' :: r =>
          let (esign, r2) : Int × List Char :=
            match r with
            | '+' :: rr => (1, rr)
            | '-' :: rr => (-1, rr)
            | _ => (1, r)
          let es := r2.takeWhile Char.isDigit
          if es.isEmpty then none
          else some (esign * (digitsToNat es : Int), r2.dropWhile Char.isDigit)
        | _ => some (0, l3)
      match step3 with
      | none => none
      | some (ex, l4) =>
        let mant : Int := sign * (digitsToNat (ds ++ fs) : Int)
        let q :=
          if 0 ≤ ex then
            mkRat (mant * (10 : Int) ^ ex.toNat) ((10 : Nat) ^ fs.length)
          else
            mkRat mant ((10 : Nat) ^ (fs.length + (-ex).toNat))
        some (q, l4)

/-- Set a key on a JS object field list: overwrite in place, else append. -/
def setField (fields : List (String × Json)) (k : String) (v : Json) :
    List (String × Json) :=
  match fields with
  | [] => [(k, v)]
  | (k', v') :: rest =>
    if k' = k then (k, v) :: rest else (k', v') :: setField rest k v

/-- Key lookup on a field list. -/
def getField (fields : List (String × Json)) (k : String) : Option Json :=
  match fields with
  | [] => none
  | (k', v) :: rest => if k' = k then some v else getField rest k

mutual

/-- Recursive-descent JSON value parse (fuel-bounded). -/
def parseValue : Nat → List Char → Option (Json × List Char)
  | 0, _ => none
  | Nat.succ fuel, l =>
    let l' := skipWs l
    if "null".toList.isPrefixOf l' then some (.null, l'.drop 4)
    else if "true".toList.isPrefixOf l' then some (.bool true, l'.drop 4)
    else if "false".toList.isPrefixOf l' then some (.bool false, l'.drop 5)
    else
      match l' with
      | '"' :: rest =>
        (parseStringBody rest).map (fun p => (.str ⟨p.1⟩, p.2))
      | '[' :: rest =>
        (match skipWs rest with
         | ']' :: rest2 => some (.arr [], rest2)
         | _ => (parseItems fuel rest).map (fun p => (.arr p.1, p.2)))
      | '{' :: rest =>
        (match skipWs rest with
         | '}' :: rest2 => some (.obj [], rest2)
         | _ => (parseMembers fuel rest).map (fun p => (.obj p.1, p.2)))
      | _ => (parseNumber l').map (fun p => (.num p.1, p.2))

/-- Array elements after `[` (at least one), through the closing `]`. -/
def parseItems : Nat → List Char → Option (List Json × List Char)
  | 0, _ => none
  | Nat.succ fuel, l => do
    let (v, r) ← parseValue fuel l
    match skipWs r with
    | ',' :: r2 => do
      let (vs, r3) ← parseItems fuel r2
      pure (v :: vs, r3)
    | ']' :: r2 => pure ([v], r2)
    | _ => none

/-- Object members after `{` (at least one), through the closing `}`.
A duplicated key keeps its first position and the later value, as
`JSON.parse` does. -/
def parseMembers : Nat → List Char → Option (List (String × Json) × List Char)
  | 0, _ => none
  | Nat.succ fuel, l =>
    match skipWs l with
    | '"' :: rest => do
      let (ks, r1) ← parseStringBody rest
      match skipWs r1 with
      | ':' :: r2 => do
        let (v, r3) ← parseValue fuel r2
        match skipWs r3 with
        | ',' :: r4 => do
          let (fs, r5) ← parseMembers fuel r4
          match getField fs ⟨ks⟩ with
          | some v' => pure ((⟨ks⟩, v') :: fs.filter (fun f => f.1 ≠ ⟨ks⟩), r5)
          | none => pure ((⟨ks⟩, v) :: fs, r5)
        | '}' :: r4 => pure ([(⟨ks⟩, v)], r4)
        | _ => none
      | _ => none
    | _ => none

end

/-- JS `JSON.parse`: whole-string parse, trailing whitespace allowed. -/
def jsonParse (s : String) : Option Json :=
  let l := s.toList
  match parseValue (2 * l.length + 2) l with
  | some (v, rest) => if skipWs rest = [] then some v else none
  | none => none

/-- JS member access `j.k`: `none` models `undefined`. -/
def jsonGet (j : Json) (k : String) : Option Json :=
  match j with
  | .obj fields => getField fields k
  | _ => none

/-- JS element access `j[0]`. -/
def jsonIndex0 (j : Json) : Option Json :=
  match j with
  | .arr (x :: _) => some x
  | .arr [] => none
  | .obj fields => getField fields "0"
  | _ => none

/-- JS truthiness of a possibly-`undefined` value. -/
def truthy (v : Option Json) : Bool :=
  match v with
  | none => false
  | some .null => false
  | some (.bool b) => b
  | some (.num q) => decide (q ≠ 0)
  | some (.str s) => decide (s ≠ "")
  | some (.arr _) => true
  | some (.obj _) => true

/-- JS property write `j.k = v` (only reachable on objects here). -/
def jsonSet (j : Json) (k : String) (v : Json) : Json :=
  match j with
  | .obj fields => .obj (setField fields k v)
  | other => other

/-- JS `parsed.k = parsed.k || dflt`. -/
def defaultField (j : Json) (k : String) (dflt : Json) : Json :=
  match jsonGet j k with
  | some v => if truthy (some v) then j else jsonSet j k dflt
  | none => jsonSet j k dflt

/-! ### `parseClaudeResponse` and `validateAndCleanData` -/

/-- JS `String.prototype.trim` (on the ASCII whitespace in play). -/
def jsTrim (s : String) : String :=
  let l := s.toList.dropWhile Char.isWhitespace
  ⟨(l.reverse.dropWhile Char.isWhitespace).reverse⟩

/-- JS `cleanText.replace(/^```json\s*/i, '')`. -/
def stripFenceJson (s : String) : String :=
  let l := s.toList
  if (l.take 7).map Char.toLower = "```json".toList then
    ⟨(l.drop 7).dropWhile Char.isWhitespace⟩
  else s

/-- JS `cleanText.replace(/^```\s*/, '')`. -/
def stripFenceBare (s : String) : String :=
  let l := s.toList
  if l.take 3 = "```".toList then
    ⟨(l.drop 3).dropWhile Char.isWhitespace⟩
  else s

/-- Leftmost position where ` ```\s*$ ` matches: the prefix before it. -/
def fenceEndScan : List Char → Option (List Char)
  | [] => none
  | c :: rest =>
    if c = '`' then
      match rest with
      | '`' :: '`' :: tail =>
        if tail.all Char.isWhitespace then some []
        else (fenceEndScan rest).map (fun p => c :: p)
      | _ => (fenceEndScan rest).map (fun p => c :: p)
    else (fenceEndScan rest).map (fun p => c :: p)

/-- JS `cleanText.replace(/```\s*$/, '')`. -/
def stripFenceEnd (s : String) : String :=
  match fenceEndScan s.toList with
  | some pre => ⟨pre⟩
  | none => s

/-- The full unwrapping done by `parseClaudeResponse` before `JSON.parse`:
trim, strip a leading ` ```json ` or ` ``` ` fence, strip a trailing
` ``` ` fence, trim again. -/
def stripFences (text : String) : String :=
  jsTrim (stripFenceEnd (stripFenceBare (stripFenceJson (jsTrim text))))

/-- JS `\w` word characters (for the `\b` boundaries of the year regex). -/
def isWordChar (c : Char) : Bool :=
  c.isAlphanum || c = '_'

/-- Score of the first match of `/\b(19|20)\d{2}\b/` in the text, if any
(`prev` is the character just before the current position). -/
def yearScan (prev : Option Char) : List Char → Option Nat
  | c1 :: c2 :: c3 :: c4 :: rest =>
    if (match prev with
        | none => true
        | some p => !isWordChar p)
        && ((c1 = '1' && c2 = '9') || (c1 = '2' && c2 = '0'))
        && c3.isDigit && c4.isDigit
        && (match rest with
            | [] => true
            | c5 :: _ => !isWordChar c5) then
      some (digitsToNat [c1, c2, c3, c4])
    else yearScan (some c1) (c2 :: c3 :: c4 :: rest)
  | _ => none

/-- First 4-digit year token of the shape `(19|20)\d{2}` (word-bounded)
in a concern string, as matched by `validateAndCleanData`. -/
def firstYearToken (s : String) : Option Nat :=
  yearScan none s.toList

/-- The `factualConcerns` filter predicate of `validateAndCleanData`:
non-strings are dropped; a `(19|20)\d{2}` year outside
`[1800, currentYear]` drops the entry; literal `example`/`placeholder`
markers drop the entry (case-sensitive, as in the source). -/
def keepConcern (currentYear : Nat) (concern : Json) : Bool :=
  match concern with
  | .str s =>
    (match firstYearToken s with
     | some y =>
       if y < 1800 || y > currentYear then false
       else !(jsIncludes s "example" || jsIncludes s "placeholder")
     | none => !(jsIncludes s "example" || jsIncludes s "placeholder"))
  | _ => false

/-- JS `s.split(/\s+/)`: split on maximal whitespace runs; a leading or
trailing run contributes an empty piece, and `""` gives `[""]`. -/
def splitWsRuns (l : List Char) : List String :=
  match l with
  | [] => [""]
  | c :: rest =>
    if c.isWhitespace then
      "" :: splitWsRuns (rest.dropWhile Char.isWhitespace)
    else
      match splitWsRuns rest with
      | [] => [⟨[c]⟩]
      | p :: ps => (⟨c :: p.toList⟩ : String) :: ps
termination_by l.length
decreasing_by
  all_goals simp only [List.length_cons, Nat.lt_succ_iff]
  · exact (List.dropWhile_sublist Char.isWhitespace).length_le
  · exact Nat.le_refl _

/-- The neutral fallback sentence substituted for repetitive text. -/
def neutralImpact : String :=
  "Exploring alternatives helps support diverse business ownership and strengthens local economies."

/-- The `impactExplanation` screening of `validateAndCleanData`: with
more than 10 whitespace-separated words and fewer than half of them
distinct, the text is replaced by the neutral fallback. -/
def cleanImpact (expl : String) : String :=
  let words := splitWsRuns (jsToLower expl).toList
  if words.length > 10 && 2 * words.dedup.length < words.length then
    neutralImpact
  else expl

/-- First mutation of `validateAndCleanData`: filter `factualConcerns`
when it is a (truthy) array. -/
def cleanConcernsField (currentYear : Nat) (data : Json) : Json :=
  match jsonGet data "factualConcerns" with
  | some (.arr concerns) =>
    jsonSet data "factualConcerns" (.arr (concerns.filter (keepConcern currentYear)))
  | _ => data

/-- Second mutation of `validateAndCleanData`: replace a repetitive
`impactExplanation` (JS guard: `data.impactExplanation && typeof ...
=== 'string'`, so the empty string is left alone). -/
def cleanImpactField (data : Json) : Json :=
  match jsonGet data "impactExplanation" with
  | some (.str expl) =>
    if expl = "" then data
    else jsonSet data "impactExplanation" (.str (cleanImpact expl))
  | _ => data

/-- Source `validateAndCleanData(data)` from the source (with the ambient
`new Date().getFullYear()` passed in as `currentYear`): filters
`factualConcerns`, replaces a repetitive `impactExplanation`.  The
year scan over `impactExplanation` and the parent-company character
check only log warnings and are omitted. -/
def validateAndCleanData (currentYear : Nat) (data : Json) : Json :=
  cleanImpactField (cleanConcernsField currentYear data)

/-- Outcome of `parseClaudeResponse`: the enriched record, or the
`PARSE_ERROR` thrown out of the `try` block. -/
inductive ParseOutcome where
  | ok (analysis : Json)
  | parseError
deriving Repr

/-- Source `parseClaudeResponse(text)` from the source (with the ambient current
year passed in): unwrap code fences, `JSON.parse`, require a truthy
`parentCompany`, default the optional arrays and the size/ownership
fields, then `validateAndCleanData`. -/
def parseClaudeResponse (currentYear : Nat) (text : String) : ParseOutcome :=
  match jsonParse (stripFences text) with
  | none => .parseError
  | some parsed =>
    if !truthy (jsonGet parsed "parentCompany") then .parseError
    else
      let parsed := defaultField parsed "factualConcerns" (.arr [])
      let parsed := defaultField parsed "certifications" (.arr [])
      let parsed := defaultField parsed "subsidiaries" (.arr [])
      let parsed := defaultField parsed "suggestedStoreTypes" (.arr [])
      let parsed := defaultField parsed "suggestedStoreNames" (.arr [])
      let parsed := defaultField parsed "googlePlacesTypes" (.arr [])
      let parsed := defaultField parsed "companySize" (.str "unknown")
      let parsed := defaultField parsed "ownershipType" (.str "unknown")
      .ok (validateAndCleanData currentYear parsed)

/-! ### Price scraping (`scrapePriceFromPage`) -/

/-- Observable outcome of `scrapePriceFromPage` on a fetched page:
`noPrice` models the JS `null`, `nanPrice` the string `"$NaN"` (a
non-numeric structured-data price run through `parseFloat(...).toFixed`),
and `price q` a `"$…"` string carrying the numeric value `q` (the
two-decimal formatting is presentation only). -/
inductive PriceOut where
  | noPrice
  | nanPrice
  | price (q : ℚ)
deriving Repr, DecidableEq

/-- JS `parseFloat`: skip leading whitespace, optional sign, decimal
digits with optional fraction and exponent; `none` models `NaN`
(no digit parsed).  Parsing stops at the first invalid character. -/
def parseFloatStr (s : String) : Option ℚ :=
  let l := s.toList.dropWhile Char.isWhitespace
  let (sign, l1) : Int × List Char :=
    match l with
    | '-' :: r => (-1, r)
    | '+' :: r => (1, r)
    | _ => (1, l)
  let ds := l1.takeWhile Char.isDigit
  let l2 := l1.dropWhile Char.isDigit
  let (fs, l3) : List Char × List Char :=
    match l2 with
    | '.' :: r => (r.takeWhile Char.isDigit, r.dropWhile Char.isDigit)
    | _ => ([], l2)
  if ds.isEmpty && fs.isEmpty then none
  else
    let ex : Int :=
      match l3 with
      | 'e' :: r | 'E' :: r =>
        let (esign, r2) : Int × List Char :=
          match r with
          | '+' :: rr => (1, rr)
          | '-' :: rr => (-1, rr)
          | _ => (1, r)
        let es := r2.takeWhile Char.isDigit
        if es.isEmpty then 0 else esign * (digitsToNat es : Int)
      | _ => 0
    let mant : Int := sign * (digitsToNat (ds ++ fs) : Int)
    some (if 0 ≤ ex then
            mkRat (mant * (10 : Int) ^ ex.toNat) ((10 : Nat) ^ fs.length)
          else
            mkRat mant ((10 : Nat) ^ (fs.length + (-ex).toNat)))

/-- Exact `q / 100` (the JS cents heuristic `price = price / 100`). -/
def divBy100 (q : ℚ) : ℚ :=
  mkRat q.num (q.den * 100)

/-- JS `parseFloat(String(v))` on a JSON value (strings and numbers as JS;
for an array, `String(...)` joins on commas, so `parseFloat` sees the
first element; booleans, `null` and objects stringify to non-numeric
text, hence `NaN`). -/
def parseFloatJson : Json → Option ℚ
  | .str s => parseFloatStr s
  | .num q => some q
  | .arr (x :: _) => parseFloatJson x
  | _ => none

/-- The literal opening tag matched by the JSON-LD regex. -/
def ldOpenTag : List Char := "<script type=\"application/ld+json\">".toList

/-- The literal closing tag. -/
def ldCloseTag : List Char := "</script>".toList

/-- First occurrence of `pat` in `l`: `(before, after)` split. -/
def splitOnSeq (pat : List Char) : List Char → Option (List Char × List Char)
  | [] => none
  | c :: rest =>
    if pat.isPrefixOf (c :: rest) then some ([], (c :: rest).drop pat.length)
    else (splitOnSeq pat rest).map (fun p => (c :: p.1, p.2))

/-- All inner texts of
`/<script type="application\/ld\+json">(.*?)<\/script>/gs` matches, with
the tag stripping done by the per-match `replace` calls (fuel-bounded
scan; the fuel is the remaining input length). -/
def ldBlocksScan (fuel : Nat) (l : List Char) : List String :=
  match fuel with
  | 0 => []
  | Nat.succ fuel =>
    match splitOnSeq ldOpenTag l with
    | none => []
    | some (_, afterOpen) =>
      match splitOnSeq ldCloseTag afterOpen with
      | none => []
      | some (inner, afterClose) => ⟨inner⟩ :: ldBlocksScan fuel afterClose

/-- The JSON-LD extraction of `scrapePriceFromPage`, method 1. -/
def extractJsonLdBlocks (html : String) : List String :=
  ldBlocksScan (html.toList.length + 1) html.toList

/-- Method 1 on one block: `JSON.parse` under a `try` (parse failure
continues), then @type === 'Product' with truthy `offers`, then
`offers.price || offers[0]?.price`; a truthy price is returned through
`parseFloat` (`none` = this block yields nothing, `some none` = `"$NaN"`,
`some (some q)` = `"$q"`). -/
def ldBlockPrice (block : String) : Option (Option ℚ) :=
  match jsonParse block with
  | none => none
  | some data =>
    match jsonGet data "@type" with
    | some (.str t) =>
      if t = "Product" && truthy (jsonGet data "offers") then
        let offers :=
          match jsonGet data "offers" with
          | some o => o
          | none => .null
        let price : Option Json :=
          if truthy (jsonGet offers "price") then jsonGet offers "price"
          else
            match jsonIndex0 offers with
            | some o0 => jsonGet o0 "price"
            | none => none
        if truthy price then
          some (parseFloatJson ((price).getD .null))
        else none
      else none
    | _ => none

/-- Method 1 over all blocks: first block that returns wins. -/
def jsonLdResult : List String → Option (Option ℚ)
  | [] => none
  | b :: rest =>
    match ldBlockPrice b with
    | some r => some r
    | none => jsonLdResult rest

/-- Maximal run of `,ddd` groups (the `(?:,\d{3})*` part of pattern 1). -/
def commaGroups : List Char → List Char × List Char
  | ',' :: a :: b :: c :: rest =>
    if a.isDigit && b.isDigit && c.isDigit then
      let (g, r) := commaGroups rest
      (',' :: a :: b :: c :: g, r)
    else ([], ',' :: a :: b :: c :: rest)
  | l => ([], l)

/-- Try `\d{1,4}(?:,\d{3})*\.\d{2}` with exactly `k` leading digits. -/
def p1TryK (k : Nat) (l : List Char) : Option (List Char × List Char) :=
  let ds := l.take k
  if ds.length = k && ds.all Char.isDigit then
    let (g, r) := commaGroups (l.drop k)
    match r with
    | '.' :: a :: b :: rest =>
      if a.isDigit && b.isDigit then some (ds ++ g ++ ['.', a, b], rest)
      else none
    | _ => none
  else none

/-- Greedy `\d{1,4}` with backtracking: longest digit prefix first. -/
def p1AfterDollar (l : List Char) : Option (List Char × List Char) :=
  match p1TryK 4 l with
  | some r => some r
  | none =>
    match p1TryK 3 l with
    | some r => some r
    | none =>
      match p1TryK 2 l with
      | some r => some r
      | none => p1TryK 1 l

/-- All full matches of `/\$(\d{1,4}(?:,\d{3})*(?:\.\d{2}))/g` in order
(as `String.prototype.match` with the `g` flag returns them: whole
matches, dollar sign included, no capture groups). -/
def p1Scan (fuel : Nat) (l : List Char) : List String :=
  match fuel, l with
  | 0, _ => []
  | _, [] => []
  | Nat.succ fuel, '$' :: rest =>
    match p1AfterDollar rest with
    | some (body, after) => (⟨'$' :: body⟩ : String) :: p1Scan fuel after
    | none => p1Scan fuel rest
  | Nat.succ fuel, _ :: rest => p1Scan fuel rest

/-- The capture `\d+\.?\d*`: `(capture, rest)`. -/
def digitsDotDigits (l : List Char) : Option (List Char × List Char) :=
  let d1 := l.takeWhile Char.isDigit
  if d1.isEmpty then none
  else
    match l.dropWhile Char.isDigit with
    | '.' :: r2 =>
      some (d1 ++ '.' :: r2.takeWhile Char.isDigit, r2.dropWhile Char.isDigit)
    | r1 => some (d1, r1)

/-- Literal of pattern 2. -/
def p2Lit : List Char := "\"price\":".toList

/-- First capture of `/"price":\s*"?(\d+\.?\d*)"?/` (fuel-bounded scan). -/
def p2Scan (fuel : Nat) (l : List Char) : Option String :=
  match fuel, l with
  | 0, _ => none
  | _, [] => none
  | Nat.succ fuel, c :: rest =>
    if p2Lit.isPrefixOf (c :: rest) then
      let r := ((c :: rest).drop p2Lit.length).dropWhile Char.isWhitespace
      let r2 :=
        match r with
        | '"' :: t => t
        | _ => r
      match digitsDotDigits r2 with
      | some (cap, _) => some ⟨cap⟩
      | none => p2Scan fuel rest
    else p2Scan fuel rest

/-- Literal `content="` of patterns 3 and 4. -/
def contentLit : List Char := "content=\"".toList

/-- Last match of `content="(\d+\.?\d*)"` inside a `>`-free span (the
greedy `[^>]*` backtracks from the right, so the rightmost one wins). -/
def contentLast : List Char → Option (List Char)
  | [] => none
  | c :: rest =>
    let here : Option (List Char) :=
      if contentLit.isPrefixOf (c :: rest) then
        match digitsDotDigits ((c :: rest).drop contentLit.length) with
        | some (cap, r) =>
          match r with
          | '"' :: _ => some cap
          | _ => none
        | none => none
      else none
    match contentLast rest with
    | some later => some later
    | none => here

/-- First capture of `/LIT[^>]*content="(\d+\.?\d*)"/` for a given
attribute literal (fuel-bounded scan over the page). -/
def attrScan (lit : List Char) (fuel : Nat) (l : List Char) : Option String :=
  match fuel, l with
  | 0, _ => none
  | _, [] => none
  | Nat.succ fuel, c :: rest =>
    if lit.isPrefixOf (c :: rest) then
      let span := ((c :: rest).drop lit.length).takeWhile (fun x => x ≠ '>')
      match contentLast span with
      | some cap => some ⟨cap⟩
      | none => attrScan lit fuel rest
    else attrScan lit fuel rest

/-- Literal of pattern 3. -/
def p3Lit : List Char := "itemprop=\"price\"".toList

/-- Literal of pattern 4. -/
def p4Lit : List Char := "property=\"product:price:amount\"".toList

/-- The shared loop body on a capture string: strip commas, `parseFloat`,
apply the cents heuristic (no decimal point and value > 100 ⇒ divide by
100), then the [5, 1000] sanity bound.  `none` falls through to the next
pattern. -/
def tryPrice (capture : Option String) : Option ℚ :=
  match capture with
  | none => none
  | some capStr =>
    let priceStr : String := ⟨capStr.toList.filter (fun c => c ≠ ',')⟩
    match parseFloatStr priceStr with
    | none => none
    | some p =>
      let p :=
        if !(priceStr.toList.contains '.') && decide (p > 100) then divBy100 p
        else p
      if decide (5 ≤ p) && decide (p ≤ 1000) then some p else none

/-- Method 2 of `scrapePriceFromPage`: the four regex patterns in
priority order.  Pattern 1 carries the `g` flag, so `match` returns the
array of full matches: with exactly one match, `match[1]` is `undefined`
and the `.replace` call throws, which the outer `try` turns into `null`;
with two or more, `match[1]` is the second full match (with its `$`),
whose `parseFloat` is `NaN`, failing the sanity bound and falling
through. -/
def patterns234 (l : List Char) : PriceOut :=
  match tryPrice (p2Scan (l.length + 1) l) with
  | some q => .price q
  | none =>
    match tryPrice (attrScan p3Lit (l.length + 1) l) with
    | some q => .price q
    | none =>
      match tryPrice (attrScan p4Lit (l.length + 1) l) with
      | some q => .price q
      | none => .noPrice

/-- See `patterns234` for patterns 2–4; this adds the pattern-1 cases. -/
def patternsResult (l : List Char) : PriceOut :=
  match p1Scan (l.length + 1) l with
  | [] => patterns234 l
  | [_] => .noPrice
  | _ :: second :: _ =>
    match tryPrice (some second) with
    | some q => .price q
    | none => patterns234 l

/-- The pure core of `scrapePriceFromPage(url)`: the processing of the
fetched page text (the fetch/timeout/non-2xx layer yields `null` before
this code runs and is not modelled). -/
def scrapePriceFromPage (html : String) : PriceOut :=
  match jsonLdResult (extractJsonLdBlocks html) with
  | some (some q) => .price q
  | some none => .nanPrice
  | none => patternsResult html.toList

/-! ## Helper lemmas about the scorer -/

theorem sumChanges_append (a b : List BreakdownEntry) :
    sumChanges (a ++ b) = sumChanges a + sumChanges b := by
  simp [sumChanges]

theorem sizeStage_excess (cs : String) (acc : Int × List BreakdownEntry) :
    (sizeStage cs acc).1 - sumChanges (sizeStage cs acc).2
      = acc.1 - sumChanges acc.2 := by
  unfold sizeStage
  split <;> try split
  all_goals try split
  all_goals try split
  all_goals simp [sumChanges_append, sumChanges] <;> omega

theorem ownershipStage_excess (ow cs : String) (acc : Int × List BreakdownEntry) :
    (ownershipStage ow cs acc).1 - sumChanges (ownershipStage ow cs acc).2
      = acc.1 - sumChanges acc.2 := by
  unfold ownershipStage
  split <;> try split
  all_goals try split
  all_goals try split
  all_goals simp [sumChanges_append, sumChanges] <;> omega

theorem avoidLoop_excess (cn : String) (subs brands : List String)
    (acc : Int × List BreakdownEntry) :
    (avoidLoop cn subs brands acc).1 - sumChanges (avoidLoop cn subs brands acc).2
      = acc.1 - sumChanges acc.2 := by
  induction brands generalizing acc with
  | nil => rfl
  | cons b rest ih =>
    simp only [avoidLoop]
    split
    · simp [sumChanges_append, sumChanges]
      omega
    · split
      · simp [sumChanges_append, sumChanges]
        omega
      · exact ih acc

theorem concernStepLabor_excess (cl : String) (st : ConcernState) :
    (concernStepLabor cl st).1.1 - sumChanges (concernStepLabor cl st).1.2
      = st.1.1 - sumChanges st.1.2 := by
  unfold concernStepLabor
  split <;> simp [sumChanges_append, sumChanges] <;> omega

theorem concernStepEnv_excess (cl : String) (st : ConcernState) :
    (concernStepEnv cl st).1.1 - sumChanges (concernStepEnv cl st).1.2
      = st.1.1 - sumChanges st.1.2 := by
  unfold concernStepEnv
  split <;> simp [sumChanges_append, sumChanges] <;> omega

theorem concernStepAnti_excess (cl : String) (st : ConcernState) :
    (concernStepAnti cl st).1.1 - sumChanges (concernStepAnti cl st).1.2
      = st.1.1 - sumChanges st.1.2 := by
  unfold concernStepAnti
  split <;> simp [sumChanges_append, sumChanges] <;> omega

theorem concernStepPolitical_excess (cl : String) (st : ConcernState) :
    (concernStepPolitical cl st).1.1 - sumChanges (concernStepPolitical cl st).1.2
      = st.1.1 - sumChanges st.1.2 := by
  unfold concernStepPolitical
  split <;> simp [sumChanges_append, sumChanges] <;> omega

theorem concernsLoop_excess (cs : List String)
    (acc : Int × List BreakdownEntry) (flags : ConcernFlags) :
    (concernsLoop cs acc flags).1 - sumChanges (concernsLoop cs acc flags).2
      = acc.1 - sumChanges acc.2 := by
  induction cs generalizing acc flags with
  | nil => rfl
  | cons c rest ih =>
    unfold concernsLoop
    rw [ih]
    rw [concernStepPolitical_excess, concernStepAnti_excess,
      concernStepEnv_excess, concernStepLabor_excess]

theorem certLoop_excess (cs : List String) (acc : Int × List BreakdownEntry) :
    (certLoop cs acc).1 - sumChanges (certLoop cs acc).2
      = acc.1 - sumChanges acc.2 := by
  induction cs generalizing acc with
  | nil => rfl
  | cons c rest ih =>
    unfold certLoop
    rw [ih]
    split <;> try split
    all_goals try split
    all_goals try split
    all_goals simp [sumChanges_append, sumChanges] <;> omega

theorem scoreAcc_excess (a : CompanyAnalysis) (p : UserPreferences) :
    (scoreAcc a p).1 - sumChanges (scoreAcc a p).2 = 100 := by
  unfold scoreAcc
  split
  · rw [concernsLoop_excess, avoidLoop_excess, ownershipStage_excess,
      sizeStage_excess]
    simp [sumChanges]
  · rw [certLoop_excess, concernsLoop_excess, avoidLoop_excess,
      ownershipStage_excess, sizeStage_excess]
    simp [sumChanges]

/-- C1: for every `CompanyAnalysis` and `UserPreferences`, the score
returned by `calculateAlignmentScore` equals
`clamp(100 + sum of the breakdown deltas, 0, 100)`, and therefore always
lies in `[0, 100]`. -/
theorem c1_score_is_clamped_sum_of_deltas (a : CompanyAnalysis)
    (p : UserPreferences) :
    (calculateAlignmentScore a p).score
      = max 0 (min 100 (100 + sumChanges (calculateAlignmentScore a p).breakdown))
    ∧ 0 ≤ (calculateAlignmentScore a p).score
    ∧ (calculateAlignmentScore a p).score ≤ 100 := by
  have h := scoreAcc_excess a p
  unfold calculateAlignmentScore
  refine ⟨?_, ?_, ?_⟩ <;> simp only [] <;> omega

/-- C3 (code bug): an analysis whose `ownershipType` is the documented
enum value `"private-equity"` gets no ownership breakdown entry at all —
the source tests `includes('private equity')` with a space, which the
hyphenated value never contains — so the −5 delta the spec (and the
code's own prompt, which fixes the enum spelling) promises is
unreachable: on an otherwise-neutral analysis the result is a perfect
score with an empty breakdown. -/
theorem c3_private_equity_branch_unreachable :
    calculateAlignmentScore
        ⟨"Indie Co", "unknown", "private-equity", [], [], []⟩ ⟨[], none⟩
      = ⟨100, []⟩
    ∧ jsIncludes (jsToLower "private-equity") "private equity" = false := by
  exact ⟨rfl, by decide⟩

/-! ## Helper lemmas: breakdown membership and score bounds -/

theorem concernStepLabor_mem (cl : String) (st : ConcernState)
    (e : BreakdownEntry) (h : e ∈ st.1.2) :
    e ∈ (concernStepLabor cl st).1.2 := by
  unfold concernStepLabor
  split
  · exact List.mem_append_left _ h
  · exact h

theorem concernStepEnv_mem (cl : String) (st : ConcernState)
    (e : BreakdownEntry) (h : e ∈ st.1.2) :
    e ∈ (concernStepEnv cl st).1.2 := by
  unfold concernStepEnv
  split
  · exact List.mem_append_left _ h
  · exact h

theorem concernStepAnti_mem (cl : String) (st : ConcernState)
    (e : BreakdownEntry) (h : e ∈ st.1.2) :
    e ∈ (concernStepAnti cl st).1.2 := by
  unfold concernStepAnti
  split
  · exact List.mem_append_left _ h
  · exact h

theorem concernStepPolitical_mem (cl : String) (st : ConcernState)
    (e : BreakdownEntry) (h : e ∈ st.1.2) :
    e ∈ (concernStepPolitical cl st).1.2 := by
  unfold concernStepPolitical
  split
  · exact List.mem_append_left _ h
  · exact h

theorem concernsLoop_mem (cs : List String)
    (acc : Int × List BreakdownEntry) (flags : ConcernFlags)
    (e : BreakdownEntry) (h : e ∈ acc.2) :
    e ∈ (concernsLoop cs acc flags).2 := by
  induction cs generalizing acc flags with
  | nil => exact h
  | cons c rest ih =>
    simp only [concernsLoop]
    exact ih _ _ (concernStepPolitical_mem _ _ e (concernStepAnti_mem _ _ e
      (concernStepEnv_mem _ _ e (concernStepLabor_mem _ _ e h))))

theorem certLoop_mem (cs : List String) (acc : Int × List BreakdownEntry)
    (e : BreakdownEntry) (h : e ∈ acc.2) :
    e ∈ (certLoop cs acc).2 := by
  induction cs generalizing acc with
  | nil => exact h
  | cons c rest ih =>
    simp only [certLoop]
    apply ih
    repeat' split
    all_goals first
      | exact List.mem_append_left _ h
      | exact h

theorem scoreAcc_mem_of_avoid (a : CompanyAnalysis) (p : UserPreferences)
    (e : BreakdownEntry)
    (h : e ∈ (avoidLoop (jsToLower a.parentCompany) a.subsidiaries
        p.avoidedBrands
        (ownershipStage (jsToLower a.ownershipType) (jsToLower a.companySize)
          (sizeStage (jsToLower a.companySize) (100, [])))).2) :
    e ∈ (scoreAcc a p).2 := by
  unfold scoreAcc
  split
  · exact concernsLoop_mem _ _ _ e h
  · exact certLoop_mem _ _ e (concernsLoop_mem _ _ _ e h)

theorem sizeStage_le (cs : String) (acc : Int × List BreakdownEntry)
    (h1 : jsIncludes cs "small" = false) (h2 : jsIncludes cs "<1b" = false) :
    (sizeStage cs acc).1 ≤ acc.1 := by
  unfold sizeStage
  repeat' split
  all_goals simp_all
  all_goals omega

theorem ownershipStage_le (ow cs : String) (acc : Int × List BreakdownEntry)
    (hf : jsIncludes ow "family" = false)
    (hc : jsIncludes ow "co-op" = false)
    (hb : jsIncludes ow "b-corp" = false) :
    (ownershipStage ow cs acc).1 ≤ acc.1 := by
  unfold ownershipStage
  repeat' split
  all_goals simp_all
  all_goals omega

theorem concernStepLabor_le (cl : String) (st : ConcernState) :
    (concernStepLabor cl st).1.1 ≤ st.1.1 := by
  unfold concernStepLabor
  split <;> simp <;> omega

theorem concernStepEnv_le (cl : String) (st : ConcernState) :
    (concernStepEnv cl st).1.1 ≤ st.1.1 := by
  unfold concernStepEnv
  split <;> simp <;> omega

theorem concernStepAnti_le (cl : String) (st : ConcernState) :
    (concernStepAnti cl st).1.1 ≤ st.1.1 := by
  unfold concernStepAnti
  split <;> simp <;> omega

theorem concernStepPolitical_le (cl : String) (st : ConcernState) :
    (concernStepPolitical cl st).1.1 ≤ st.1.1 := by
  unfold concernStepPolitical
  split <;> simp <;> omega

theorem concernsLoop_le (cs : List String)
    (acc : Int × List BreakdownEntry) (flags : ConcernFlags) :
    (concernsLoop cs acc flags).1 ≤ acc.1 := by
  induction cs generalizing acc flags with
  | nil => exact le_refl _
  | cons c rest ih =>
    simp only [concernsLoop]
    refine le_trans (ih _ _) ?_
    calc (concernStepPolitical (jsToLower c) (concernStepAnti (jsToLower c)
          (concernStepEnv (jsToLower c)
            (concernStepLabor (jsToLower c) (acc, flags))))).1.1
        ≤ (concernStepAnti (jsToLower c) (concernStepEnv (jsToLower c)
            (concernStepLabor (jsToLower c) (acc, flags)))).1.1 :=
          concernStepPolitical_le _ _
      _ ≤ (concernStepEnv (jsToLower c)
            (concernStepLabor (jsToLower c) (acc, flags))).1.1 :=
          concernStepAnti_le _ _
      _ ≤ (concernStepLabor (jsToLower c) (acc, flags)).1.1 :=
          concernStepEnv_le _ _
      _ ≤ acc.1 := concernStepLabor_le _ _

/-! ## Helper lemmas: the avoid rule and the avoid detector -/

theorem avoidLoop_eq_find (cn : String) (subs brands : List String)
    (acc : Int × List BreakdownEntry) :
    avoidLoop cn subs brands acc =
      match brands.find? (scorerAvoidHit cn subs) with
      | none => acc
      | some b =>
        if jsIncludes cn (jsToLower b) then
          (acc.1 - 30, acc.2 ++ [⟨"On your avoid list: " ++ b, -30⟩])
        else
          (acc.1 - 25, acc.2 ++ [⟨"Parent company on avoid list: " ++ b, -25⟩]) := by
  induction brands generalizing acc with
  | nil => rfl
  | cons b rest ih =>
    by_cases h1 : jsIncludes cn (jsToLower b) = true
    · simp [avoidLoop, List.find?_cons, scorerAvoidHit, h1]
    · by_cases h2 :
        (subs.any fun sub => jsIncludes (jsToLower sub) (jsToLower b)) = true
      · simp [avoidLoop, List.find?_cons, scorerAvoidHit, h1, h2]
      · simp [avoidLoop, List.find?_cons, scorerAvoidHit, h1, h2, ih]

theorem checkAvoidedLoop_isOnAvoidList (cn : String) (subs brands : List String) :
    (checkAvoidedLoop cn subs brands).isOnAvoidList
      = brands.any (fun b =>
          jsIncludes cn (jsToLower b)
            || jsIncludes (jsToLower b) (firstWord cn)
            || avoidSubMatch subs (jsToLower b)) := by
  induction brands with
  | nil => rfl
  | cons b rest ih =>
    simp only [checkAvoidedLoop, List.any_cons]
    by_cases h1 : (jsIncludes cn (jsToLower b)
        || jsIncludes (jsToLower b) (firstWord cn)) = true
    · rw [if_pos h1]
      rcases Bool.or_eq_true _ _ |>.mp h1 with h | h <;> simp [h]
    · rw [if_neg h1]
      simp only [Bool.or_eq_true, not_or, Bool.not_eq_true] at h1
      by_cases h2 : avoidSubMatch subs (jsToLower b) = true
      · rw [if_pos h2]
        simp [h2]
      · simp only [Bool.not_eq_true] at h2
        rw [if_neg (by simp [h2]), ih]
        simp [h1.1, h1.2, h2]

theorem scoreAcc_le_70_of_amazon (a : CompanyAnalysis) (p : UserPreferences)
    (hpar : a.parentCompany = "Amazon.com Inc")
    (hav : p.avoidedBrands = ["Amazon"])
    (h1 : jsIncludes (jsToLower a.companySize) "small" = false)
    (h2 : jsIncludes (jsToLower a.companySize) "<1b" = false)
    (hf : jsIncludes (jsToLower a.ownershipType) "family" = false)
    (hc : jsIncludes (jsToLower a.ownershipType) "co-op" = false)
    (hb : jsIncludes (jsToLower a.ownershipType) "b-corp" = false)
    (hcert : a.certifications = []) :
    (scoreAcc a p).1 ≤ 70 := by
  have havoid : ∀ (A : Int × List BreakdownEntry),
      avoidLoop (jsToLower "Amazon.com Inc") a.subsidiaries ["Amazon"] A
        = (A.1 - 30, A.2 ++ [⟨"On your avoid list: Amazon", -30⟩]) := by
    intro A
    have hcn : jsIncludes (jsToLower "Amazon.com Inc") (jsToLower "Amazon") = true := by
      decide
    simp [avoidLoop, hcn]
  have hs : (sizeStage (jsToLower a.companySize) (100, [])).1 ≤ 100 := by
    simpa using sizeStage_le (jsToLower a.companySize) (100, []) h1 h2
  have ho := ownershipStage_le (jsToLower a.ownershipType)
    (jsToLower a.companySize)
    (sizeStage (jsToLower a.companySize) (100, [])) hf hc hb
  simp only [scoreAcc]
  rw [hpar, hav, havoid]
  split
  · refine le_trans (concernsLoop_le _ _ _) ?_
    simp only []
    omega
  · rw [hcert]
    simp only [certLoop]
    refine le_trans (concernsLoop_le _ _ _) ?_
    simp only []
    omega

/-! ## Claim theorems C2, C4, C9 -/

/-- C2 (counterexample): with `avoidedBrands = ["Sub", "Par"]`, parent
company `"Par Inc"` and subsidiary `"Sub Co"`, the parent company does
contain the avoided brand `"Par"`, yet the breakdown carries a single
−25 subsidiary entry and no −30 entry — the per-brand loop stops at the
subsidiary match for the earlier brand, so a parent match for a later
brand does not take priority. -/
theorem c2_counterexample_subsidiary_shadows_parent :
    jsIncludes (jsToLower "Par Inc") (jsToLower "Par") = true
    ∧ calculateAlignmentScore
        ⟨"Par Inc", "unknown", "unknown", [], [], ["Sub Co"]⟩
        ⟨["Sub", "Par"], none⟩
      = ⟨75, [⟨"Parent company on avoid list: Sub", -25⟩]⟩
    ∧ ((calculateAlignmentScore
        ⟨"Par Inc", "unknown", "unknown", [], [], ["Sub Co"]⟩
        ⟨["Sub", "Par"], none⟩).breakdown.all
          (fun e => decide (e.change ≠ -30))) = true := by
  exact ⟨by decide, rfl, rfl⟩

/-- C2 (amended): the scorer's avoid rule walks the avoided brands in
list order and fires on the *first* brand that matches at all: if the
parent company contains that brand the single entry is −30, otherwise
(its subsidiary match) the single entry is −25, and no further brands
are checked; with no matching brand nothing is added.  Brand-vs-brand
priority is positional, not parent-over-subsidiary. -/
theorem c2_avoid_rule_fires_on_first_matching_brand (cn : String)
    (subs brands : List String) (acc : Int × List BreakdownEntry) :
    avoidLoop cn subs brands acc =
      match brands.find? (scorerAvoidHit cn subs) with
      | none => acc
      | some b =>
        if jsIncludes cn (jsToLower b) then
          (acc.1 - 30, acc.2 ++ [⟨"On your avoid list: " ++ b, -30⟩])
        else
          (acc.1 - 25, acc.2 ++ [⟨"Parent company on avoid list: " ++ b, -25⟩]) :=
  avoidLoop_eq_find cn subs brands acc

/-- C4 (counterexample): with parent company `"Ama Corp"` and avoided
brand `"Amazon"`, `checkAvoidedBrands` reports a match (through its
extra reversed containment test `brand.includes(firstWordOfParent)`),
while the scorer's avoid rule does not fire at all — the two routines
are not equivalent. -/
theorem c4_counterexample_detector_wider_than_scorer :
    (checkAvoidedBrands ⟨"Ama Corp", "unknown", "unknown", [], [], []⟩
        ["Amazon"]).isOnAvoidList = true
    ∧ calculateAlignmentScore
        ⟨"Ama Corp", "unknown", "unknown", [], [], []⟩ ⟨["Amazon"], none⟩
      = ⟨100, []⟩ := by
  exact ⟨rfl, rfl⟩

/-- C4 (amended): `checkAvoidedBrands` reports `isOnAvoidList = true`
*whenever* the scorer's avoid rule would fire (its per-brand test is a
superset of the scorer's, adding reversed first-word containment checks,
so it can additionally fire when the scorer's rule does not), and on an
empty avoid list it returns `false` with an empty reason. -/
theorem c4_detector_covers_scorer_rule (a : CompanyAnalysis)
    (brands : List String)
    (h : ∃ b ∈ brands,
      scorerAvoidHit (jsToLower a.parentCompany) a.subsidiaries b = true) :
    (checkAvoidedBrands a brands).isOnAvoidList = true
    ∧ checkAvoidedBrands a [] = ⟨false, ""⟩ := by
  constructor
  · obtain ⟨b, hb, hhit⟩ := h
    have hne : brands ≠ [] := by
      intro he
      subst he
      exact absurd hb (List.not_mem_nil b)
    unfold checkAvoidedBrands
    rw [if_neg hne, checkAvoidedLoop_isOnAvoidList, List.any_eq_true]
    refine ⟨b, hb, ?_⟩
    unfold scorerAvoidHit at hhit
    rcases Bool.or_eq_true _ _ |>.mp hhit with hcase | hcase
    · simp [hcase]
    · simp only [List.any_eq_true] at hcase
      obtain ⟨sub, hsub, hinc⟩ := hcase
      have hwide : avoidSubMatch (a.subsidiaries.map (fun s => jsToLower s))
          (jsToLower b) = true := by
        unfold avoidSubMatch
        rw [List.any_eq_true]
        exact ⟨jsToLower sub, List.mem_map_of_mem _ hsub, by simp [hinc]⟩
      simp [hwide]
  · rfl

/-- C4 (witness): the amended theorem applied to parent company
`"Amazon Inc"` with avoid list `["Amazon"]`, where the scorer's rule
does fire. -/
theorem c4_detector_covers_scorer_rule_witness :
    (checkAvoidedBrands ⟨"Amazon Inc", "unknown", "unknown", [], [], []⟩
        ["Amazon"]).isOnAvoidList = true
    ∧ checkAvoidedBrands ⟨"Amazon Inc", "unknown", "unknown", [], [], []⟩ []
      = ⟨false, ""⟩ := by
  exact c4_detector_covers_scorer_rule
    ⟨"Amazon Inc", "unknown", "unknown", [], [], []⟩ ["Amazon"]
    ⟨"Amazon", by simp, by decide⟩

/-- C9 (counterexample): with parent `"Amazon.com Inc"` and avoided
brands `["Amazon"]`, the small-business and co-op bonuses push the final
score to 95 — the breakdown does include the −30 entry, but the score is
not `≤ 70` "regardless of which other bonuses apply". -/
theorem c9_counterexample_bonuses_exceed_70 :
    calculateAlignmentScore
        ⟨"Amazon.com Inc", "small-business", "co-op", [], [], []⟩
        ⟨["Amazon"], none⟩
      = ⟨95, [⟨"Small business (<$1B)", 10⟩, ⟨"Co-op or B-Corp structure", 15⟩,
              ⟨"On your avoid list: Amazon", -30⟩]⟩
    ∧ ¬((95 : Int) ≤ 70) := by
  exact ⟨rfl, by decide⟩

/-- C9 (amended): for every analysis with parent `"Amazon.com Inc"` and
preferences with `avoidedBrands = ["Amazon"]`, the breakdown always
includes the −30 "On your avoid list" entry; and the final score is
at most 70 provided no bonus rule applies (company size not in the
small-business branch, ownership not in the family/co-op/b-corp
branches, no certifications). -/
theorem c9_avoid_entry_always_and_bound_without_bonuses
    (a : CompanyAnalysis) (p : UserPreferences)
    (hpar : a.parentCompany = "Amazon.com Inc")
    (hav : p.avoidedBrands = ["Amazon"]) :
    (⟨"On your avoid list: Amazon", -30⟩ : BreakdownEntry)
      ∈ (calculateAlignmentScore a p).breakdown
    ∧ ((jsIncludes (jsToLower a.companySize) "small" = false
        ∧ jsIncludes (jsToLower a.companySize) "<1b" = false
        ∧ jsIncludes (jsToLower a.ownershipType) "family" = false
        ∧ jsIncludes (jsToLower a.ownershipType) "co-op" = false
        ∧ jsIncludes (jsToLower a.ownershipType) "b-corp" = false
        ∧ a.certifications = []) →
      (calculateAlignmentScore a p).score ≤ 70) := by
  have havoid : ∀ (A : Int × List BreakdownEntry),
      avoidLoop (jsToLower "Amazon.com Inc") a.subsidiaries ["Amazon"] A
        = (A.1 - 30, A.2 ++ [⟨"On your avoid list: Amazon", -30⟩]) := by
    intro A
    have hcn : jsIncludes (jsToLower "Amazon.com Inc") (jsToLower "Amazon") = true := by
      decide
    simp [avoidLoop, hcn]
  constructor
  · unfold calculateAlignmentScore
    simp only []
    apply scoreAcc_mem_of_avoid
    rw [hpar, hav, havoid]
    simp
  · rintro ⟨h1, h2, hf, hc, hb, hcert⟩
    have hle := scoreAcc_le_70_of_amazon a p hpar hav h1 h2 hf hc hb hcert
    unfold calculateAlignmentScore
    simp only []
    omega

/-- C9 (witness): the amended theorem at a mega-corp, publicly-traded
`"Amazon.com Inc"` analysis with no certifications. -/
theorem c9_avoid_entry_always_and_bound_witness :
    (⟨"On your avoid list: Amazon", -30⟩ : BreakdownEntry)
      ∈ (calculateAlignmentScore
          ⟨"Amazon.com Inc", "mega-corp", "publicly-traded", [], [], []⟩
          ⟨["Amazon"], none⟩).breakdown
    ∧ (calculateAlignmentScore
        ⟨"Amazon.com Inc", "mega-corp", "publicly-traded", [], [], []⟩
        ⟨["Amazon"], none⟩).score ≤ 70 := by
  have h := c9_avoid_entry_always_and_bound_without_bonuses
    ⟨"Amazon.com Inc", "mega-corp", "publicly-traded", [], [], []⟩
    ⟨["Amazon"], none⟩ rfl rfl
  exact ⟨h.1, h.2 ⟨by decide, by decide, by decide, by decide, by decide, rfl⟩⟩

/-! ## Helper lemmas and claim theorem for C7 (aggregator dedup) -/

theorem addUniquePlaces_eq_foldl (newPlaces : List Place) (acc : List Place) :
    addUniquePlaces acc newPlaces (acc.map Place.id)
      = (newPlaces.foldl specStep acc,
         (newPlaces.foldl specStep acc).map Place.id) := by
  induction newPlaces generalizing acc with
  | nil => rfl
  | cons p rest ih =>
    simp only [addUniquePlaces, List.foldl_cons, specStep]
    split
    · exact ih acc
    · rw [show acc.map Place.id ++ [p.id] = (acc ++ [p]).map Place.id by
        simp]
      exact ih (acc ++ [p])

theorem foldl_specStep_nodup (l : List Place) (acc : List Place)
    (h : (acc.map Place.id).Nodup) :
    ((l.foldl specStep acc).map Place.id).Nodup := by
  induction l generalizing acc with
  | nil => exact h
  | cons p rest ih =>
    simp only [List.foldl_cons]
    apply ih
    unfold specStep
    split
    · exact h
    · rename_i hnot
      simp only [List.map_append, List.map_cons, List.map_nil]
      rw [List.nodup_append]
      exact ⟨h, List.nodup_singleton _, by simpa using hnot⟩

theorem mergeBatches_fold_inv (batches : List (List Place)) (acc : List Place) :
    batches.foldl (fun st places => addUniquePlaces st.1 places st.2)
        (acc, acc.map Place.id)
      = ((batches.flatten).foldl specStep acc,
         ((batches.flatten).foldl specStep acc).map Place.id) := by
  induction batches generalizing acc with
  | nil => rfl
  | cons bs rest ih =>
    simp only [List.foldl_cons, List.flatten_cons, List.foldl_append]
    rw [addUniquePlaces_eq_foldl]
    exact ih (bs.foldl specStep acc)

/-- C7: merging the strategy batches through the seen-set keeps provider
ids unique, equals first-occurrence deduplication of the concatenated
batches (so discovery order of first occurrences is preserved), and in
particular the same provider id arriving from strategy 1 and strategy 2
yields a single entry. -/
theorem c7_merge_dedups_by_provider_id (batches : List (List Place)) :
    ((mergeStrategyBatches batches).map Place.id).Nodup
    ∧ mergeStrategyBatches batches = specDedupById batches.flatten
    ∧ mergeStrategyBatches
        [[⟨"place-1", some "A", none, none, [], ""⟩],
         [⟨"place-1", some "A2", none, none, [], ""⟩,
          ⟨"place-2", some "B", none, none, [], ""⟩]]
      = [⟨"place-1", some "A", none, none, [], ""⟩,
         ⟨"place-2", some "B", none, none, [], ""⟩] := by
  have key : ∀ bs : List (List Place),
      mergeStrategyBatches bs = (bs.flatten).foldl specStep [] := by
    intro bs
    unfold mergeStrategyBatches
    rw [show (([], []) : List Place × List String)
          = (([] : List Place), ([] : List Place).map Place.id) by rfl]
    rw [mergeBatches_fold_inv]
  refine ⟨?_, ?_, by rfl⟩
  · rw [key]
    exact foldl_specStep_nodup _ [] (by simp)
  · rw [key]
    rfl

/-! ## Helper lemmas and claim theorem for C8 (big-box denylist) -/

theorem placeKeep_no_bigbox (csl : String) (filters : CategoryFilters)
    (place : Place) (h : placeKeep csl filters place = true) :
    bigBoxRetailers.any
      (fun r => jsIncludes (jsToLower (place.displayName.getD "")) r) = false := by
  simp only [placeKeep, Bool.and_eq_true, Bool.not_eq_true'] at h
  exact h.1.1.1.2

/-- C8: every candidate surviving `filterAndScorePlaces` has a name with
no case-insensitive big-box denylist match, whatever the category, the
analysis or the current site; in particular no surviving candidate is
named "Walmart Supercenter". -/
theorem c8_bigbox_names_never_survive (places : List Place)
    (productCategory : String) (analysis : CompanyAnalysis)
    (currentSite : Option String) (sp : ScoredPlace)
    (h : sp ∈ filterAndScorePlaces places productCategory analysis currentSite) :
    bigBoxMatch sp.name = false ∧ sp.name ≠ "Walmart Supercenter" := by
  simp only [filterAndScorePlaces] at h
  rw [(List.perm_insertionSort _ _).mem_iff, List.mem_map] at h
  obtain ⟨q, hq, rfl⟩ := h
  rw [List.mem_filter] at hq
  have hbb := placeKeep_no_bigbox _ _ _ hq.2
  cases hdn : q.displayName with
  | none =>
    have hnm : (toScoredPlace (jsToLower productCategory) q).name = "Local Store" := by
      simp [toScoredPlace, hdn]
    rw [hnm]
    exact ⟨by decide, by decide⟩
  | some t =>
    by_cases ht : t = ""
    · have hnm : (toScoredPlace (jsToLower productCategory) q).name = "Local Store" := by
        simp [toScoredPlace, hdn, ht]
      rw [hnm]
      exact ⟨by decide, by decide⟩
    · have hnm : (toScoredPlace (jsToLower productCategory) q).name = t := by
        simp [toScoredPlace, hdn, ht]
      rw [hnm]
      rw [hdn] at hbb
      simp only [Option.getD_some] at hbb
      refine ⟨by simpa [bigBoxMatch] using hbb, ?_⟩
      intro heq
      subst heq
      simp [bigBoxRetailers] at hbb
      exact absurd hbb.1 (by decide)

/-- C8 (witness): the theorem applied to a concrete surviving candidate
(an open "Corner Shop" of generic type `store`). -/
theorem c8_bigbox_names_never_survive_witness :
    bigBoxMatch (toScoredPlace (jsToLower "water bottles")
        ⟨"id-1", some "Corner Shop", none, none, ["store"], "OPERATIONAL"⟩).name
      = false
    ∧ (toScoredPlace (jsToLower "water bottles")
        ⟨"id-1", some "Corner Shop", none, none, ["store"], "OPERATIONAL"⟩).name
      ≠ "Walmart Supercenter" := by
  exact c8_bigbox_names_never_survive
    [⟨"id-1", some "Corner Shop", none, none, ["store"], "OPERATIONAL"⟩]
    "water bottles" ⟨"X", "unknown", "unknown", [], [], []⟩ none
    (toScoredPlace (jsToLower "water bottles")
      ⟨"id-1", some "Corner Shop", none, none, ["store"], "OPERATIONAL"⟩)
    (by decide)

/-! ## Claim theorems for C6 (year screening) -/

/-- C6 (counterexample): the concern `"1799 incident"` contains the
4-digit year token 1799, which lies outside `[1800, currentYear]`, yet
hallucination screening retains it (at `currentYear = 2026`): the source
regex `\b(19|20)\d{2}\b` never matches a year outside 1900–2099, so the
"discard iff the year is outside [1800, current-year]" reading fails. -/
theorem c6_counterexample_pre1900_year_retained :
    jsIncludes "1799 incident" "1799" = true
    ∧ (1799 : Nat) < 1800
    ∧ keepConcern 2026 (.str "1799 incident") = true
    ∧ validateAndCleanData 2026
        (.obj [("factualConcerns", .arr [.str "1799 incident"])])
      = .obj [("factualConcerns", .arr [.str "1799 incident"])] := by
  exact ⟨by decide, by decide, rfl, rfl⟩

/-- C6 (amended): screening only reacts to year tokens of the shape
`(19|20)\d{2}` (word-bounded, first match).  For a string entry free of
the `example`/`placeholder` markers, the entry is discarded iff such a
token exists and lies outside `[1800, currentYear]` — and since the
token shape forces 1900–2099, effectively iff it exceeds the current
year.  `"1850 wage dispute"` is retained (its year matches no token);
`"2099 wage dispute"` is discarded at any current year before 2099. -/
theorem c6_year_screen_only_19xx_20xx (y : Nat) (s : String)
    (hex : jsIncludes s "example" = false)
    (hpl : jsIncludes s "placeholder" = false) :
    (keepConcern y (.str s) = false
      ↔ ∃ n, firstYearToken s = some n ∧ (n < 1800 ∨ y < n))
    ∧ keepConcern 2026 (.str "1850 wage dispute") = true
    ∧ keepConcern 2026 (.str "2099 wage dispute") = false
    ∧ validateAndCleanData 2026
        (.obj [("factualConcerns",
          .arr [.str "1850 wage dispute", .str "2099 wage dispute"])])
      = .obj [("factualConcerns", .arr [.str "1850 wage dispute"])] := by
  refine ⟨?_, rfl, rfl, rfl⟩
  cases hy : firstYearToken s with
  | none =>
    simp [keepConcern, hy, hex, hpl]
  | some n =>
    simp only [keepConcern, hy, hex, hpl, Bool.or_false, Bool.not_false]
    by_cases hc : n < 1800 ∨ y < n
    · have hcond : (decide (n < 1800) || decide (n > y)) = true := by
        rcases hc with hc | hc <;> simp [hc]
      rw [if_pos hcond]
      exact ⟨fun _ => ⟨n, rfl, hc⟩, fun _ => rfl⟩
    · have h1 : ¬ n < 1800 := fun hh => hc (Or.inl hh)
      have h2 : ¬ y < n := fun hh => hc (Or.inr hh)
      have hcond : ¬ ((decide (n < 1800) || decide (n > y)) = true) := by
        simp [h1, h2]
      rw [if_neg hcond]
      constructor
      · intro hfalse
        exact absurd hfalse (by simp)
      · rintro ⟨n', hn', hcond'⟩
        injection hn' with hnn
        subst hnn
        exact absurd hcond' hc

/-- C6 (witness): the amended theorem at `"2040 recall rumor"` and
current year 2026: the entry is discarded because its 20xx token exceeds
the current year. -/
theorem c6_year_screen_witness :
    keepConcern 2026 (.str "2040 recall rumor") = false := by
  have h := c6_year_screen_only_19xx_20xx 2026 "2040 recall rumor"
    (by decide) (by decide)
  exact h.1.mpr ⟨2040, by decide, Or.inr (by decide)⟩

/-! ## Helper lemmas and claim theorems for C10 (price sanity bound) -/

theorem tryPrice_bound (capture : Option String) (q : ℚ)
    (h : tryPrice capture = some q) : 5 ≤ q ∧ q ≤ 1000 := by
  simp only [tryPrice] at h
  repeat' split at h
  all_goals first
    | exact Option.noConfusion h
    | (injection h with hq
       subst hq
       rename_i hcond
       exact ⟨of_decide_eq_true (Bool.and_eq_true _ _ |>.mp hcond).1,
              of_decide_eq_true (Bool.and_eq_true _ _ |>.mp hcond).2⟩)

theorem patterns234_bound (l : List Char) (q : ℚ)
    (h : patterns234 l = .price q) : 5 ≤ q ∧ q ≤ 1000 := by
  unfold patterns234 at h
  split at h
  · injection h with hq
    subst hq
    exact tryPrice_bound _ _ (by assumption)
  · split at h
    · injection h with hq
      subst hq
      exact tryPrice_bound _ _ (by assumption)
    · split at h
      · injection h with hq
        subst hq
        exact tryPrice_bound _ _ (by assumption)
      · exact absurd h (by simp)

theorem patternsResult_bound (l : List Char) (q : ℚ)
    (h : patternsResult l = .price q) : 5 ≤ q ∧ q ≤ 1000 := by
  unfold patternsResult at h
  split at h
  · exact patterns234_bound _ _ h
  · exact absurd h (by simp)
  · split at h
    · injection h with hq
      subst hq
      exact tryPrice_bound _ _ (by assumption)
    · exact patterns234_bound _ _ h

/-- C10 (counterexample): a page whose JSON-LD block carries a Product
offer price of 5000 makes `scrapePriceFromPage` return `$5000.00` — a
non-null price whose numeric value is outside `[5, 1000]`: the sanity
bound is not applied on the structured-data path. -/
theorem c10_counterexample_jsonld_price_unbounded :
    scrapePriceFromPage
        ("<script type=\"application/ld+json\">\x7b\"@type\":\"Product\"," ++
         "\"offers\":\x7b\"price\":\"5000\"\x7d\x7d</script>")
      = .price 5000
    ∧ ¬((5000 : ℚ) ≤ 1000) := by
  exact ⟨rfl, by decide⟩

/-- C10 (amended): the `[5, 1000]` sanity bound holds for every price
produced by the regex-pattern fallback — whenever the JSON-LD method
yields nothing and `scrapePriceFromPage` still returns a numeric price,
that value lies in `[5, 1000]`; a JSON-LD structured-data price is
returned without the bound. -/
theorem c10_pattern_prices_bounded (html : String) (q : ℚ)
    (hld : jsonLdResult (extractJsonLdBlocks html) = none)
    (h : scrapePriceFromPage html = .price q) :
    5 ≤ q ∧ q ≤ 1000 := by
  unfold scrapePriceFromPage at h
  rw [hld] at h
  exact patternsResult_bound _ _ h

/-- C10 (witness): the amended theorem on a page with a `"price":"2700"`
pattern and no JSON-LD block — the scraped value 27 (cents heuristic
applied) lies in `[5, 1000]`. -/
theorem c10_pattern_prices_bounded_witness :
    (5 : ℚ) ≤ 27 ∧ (27 : ℚ) ≤ 1000 := by
  exact c10_pattern_prices_bounded "x \"price\": \"2700\" y" 27 rfl rfl

/-! ## Helper lemmas and claim theorem for C5 (response parsing) -/

theorem getField_setField_ne (fields : List (String × Json))
    (k k' : String) (v : Json) (h : k ≠ k') :
    getField (setField fields k' v) k = getField fields k := by
  induction fields with
  | nil =>
    simp only [setField, getField]
    rw [if_neg (fun he => h he.symm)]
  | cons f rest ih =>
    obtain ⟨k0, v0⟩ := f
    simp only [setField]
    split
    · rename_i hk0
      subst hk0
      simp only [getField]
      rw [if_neg (fun he => h he.symm), if_neg (fun he => h he.symm)]
    · simp only [getField]
      split
      · rfl
      · exact ih

theorem jsonGet_jsonSet_ne (j : Json) (k k' : String) (v : Json)
    (h : k ≠ k') :
    jsonGet (jsonSet j k' v) k = jsonGet j k := by
  cases j <;> simp only [jsonGet, jsonSet]
  exact getField_setField_ne _ _ _ _ h

theorem jsonGet_defaultField_ne (j : Json) (k k' : String) (d : Json)
    (h : k ≠ k') :
    jsonGet (defaultField j k' d) k = jsonGet j k := by
  unfold defaultField
  split
  · split
    · rfl
    · exact jsonGet_jsonSet_ne _ _ _ _ h
  · exact jsonGet_jsonSet_ne _ _ _ _ h

theorem jsonGet_cleanConcerns_ne (y : Nat) (data : Json) (k : String)
    (h1 : k ≠ "factualConcerns") :
    jsonGet (cleanConcernsField y data) k = jsonGet data k := by
  unfold cleanConcernsField
  split
  · exact jsonGet_jsonSet_ne _ _ _ _ h1
  · rfl

theorem jsonGet_cleanImpact_ne (data : Json) (k : String)
    (h2 : k ≠ "impactExplanation") :
    jsonGet (cleanImpactField data) k = jsonGet data k := by
  unfold cleanImpactField
  split
  · split
    · rfl
    · exact jsonGet_jsonSet_ne _ _ _ _ h2
  · rfl

theorem jsonGet_validate_ne (y : Nat) (data : Json) (k : String)
    (h1 : k ≠ "factualConcerns") (h2 : k ≠ "impactExplanation") :
    jsonGet (validateAndCleanData y data) k = jsonGet data k := by
  unfold validateAndCleanData
  rw [jsonGet_cleanImpact_ne _ _ h2, jsonGet_cleanConcerns_ne _ _ _ h1]

/-- C5: on the concrete fenced input the response parse succeeds with
`parentCompany = "Acme"`, every optional array defaulted to empty and
size/ownership defaulted to `"unknown"`; in general, a text that decodes
(after fence stripping) to a record with a non-empty string
`parentCompany` parses successfully and keeps that `parentCompany`,
while a text that does not decode, or whose `parentCompany` is absent or
the empty string, fails with `ParseError`. -/
theorem c5_parse_outcome_by_parent_company (y : Nat) (text : String) :
    parseClaudeResponse y "```json\n\x7b\"parentCompany\":\"Acme\"\x7d\n```"
      = .ok (.obj [("parentCompany", .str "Acme"),
                   ("factualConcerns", .arr []),
                   ("certifications", .arr []),
                   ("subsidiaries", .arr []),
                   ("suggestedStoreTypes", .arr []),
                   ("suggestedStoreNames", .arr []),
                   ("googlePlacesTypes", .arr []),
                   ("companySize", .str "unknown"),
                   ("ownershipType", .str "unknown")])
    ∧ (jsonParse (stripFences text) = none →
        parseClaudeResponse y text = .parseError)
    ∧ (∀ parsed, jsonParse (stripFences text) = some parsed →
        (jsonGet parsed "parentCompany" = none
          ∨ jsonGet parsed "parentCompany" = some (.str "")) →
        parseClaudeResponse y text = .parseError)
    ∧ (∀ parsed s, jsonParse (stripFences text) = some parsed →
        jsonGet parsed "parentCompany" = some (.str s) → s ≠ "" →
        ∃ out, parseClaudeResponse y text = .ok out
          ∧ jsonGet out "parentCompany" = some (.str s)) := by
  refine ⟨rfl, ?_, ?_, ?_⟩
  · intro h
    unfold parseClaudeResponse
    rw [h]
  · intro parsed hp hpar
    have htr : truthy (jsonGet parsed "parentCompany") = false := by
      rcases hpar with h | h <;> rw [h] <;> rfl
    unfold parseClaudeResponse
    rw [hp]
    simp [htr]
  · intro parsed s hp hpar hs
    have ht : truthy (jsonGet parsed "parentCompany") = true := by
      rw [hpar]
      simp [truthy, hs]
    unfold parseClaudeResponse
    rw [hp]
    simp only [ht, Bool.not_true, Bool.false_eq_true, if_false]
    refine ⟨_, rfl, ?_⟩
    rw [jsonGet_validate_ne _ _ _ (by decide) (by decide)]
    rw [jsonGet_defaultField_ne _ _ _ _ (by decide),
      jsonGet_defaultField_ne _ _ _ _ (by decide),
      jsonGet_defaultField_ne _ _ _ _ (by decide),
      jsonGet_defaultField_ne _ _ _ _ (by decide),
      jsonGet_defaultField_ne _ _ _ _ (by decide),
      jsonGet_defaultField_ne _ _ _ _ (by decide),
      jsonGet_defaultField_ne _ _ _ _ (by decide),
      jsonGet_defaultField_ne _ _ _ _ (by decide)]
    exact hpar

/-- C5 (witness): the theorem applied to the undecodable input
`"not json"` (ParseError) and to the fenced Acme record (success with
`parentCompany = "Acme"`). -/
theorem c5_parse_outcome_witness :
    parseClaudeResponse 2026 "not json" = .parseError
    ∧ (∃ out,
        parseClaudeResponse 2026 "```json\n\x7b\"parentCompany\":\"Acme\"\x7d\n```"
          = .ok out
        ∧ jsonGet out "parentCompany" = some (.str "Acme")) := by
  have h1 := c5_parse_outcome_by_parent_company 2026 "not json"
  have h2 := c5_parse_outcome_by_parent_company 2026
    "```json\n\x7b\"parentCompany\":\"Acme\"\x7d\n```"
  exact ⟨h1.2.1 rfl,
    h2.2.2.2 (.obj [("parentCompany", .str "Acme")]) "Acme" rfl rfl (by decide)⟩

end Vinegar
